import Mathlib

/-!
Verification of the node-stream post-execution event extraction engine
(`crates/node-stream/src/example.rs`): topic model, object-change taxonomy,
payload envelope, extraction algorithm and binary codec.

External `sui_types` entities (object ids, references, owners, objects,
effects, transactions) are modelled structurally: ids, versions, digests,
addresses and gas summaries become `Nat`; identifiers and object contents
become byte lists.  The object store is a function returning
`Except String (Option Object)`; a Rust panic on a store error is modelled
by propagating the error through `Except`, so an aborted extraction
produces no list at all.
-/

set_option maxRecDepth 10000

deriving instance DecidableEq for Except

namespace NodeStream

/-- Alias for `String`, used inside the namespaces of the event enums where
their `String` constructor shadows the string type. -/
abbrev Str := String

abbrev ObjectID := Nat
abbrev SequenceNumber := Nat
abbrev ObjectDigest := Nat
abbrev SuiAddress := Nat
abbrev TransactionDigest := Nat
abbrev Identifier := List Nat
abbrev GasCostSummary := Nat

/-- An object reference: (object id, version, content digest). -/
abbrev ObjectRef := ObjectID × SequenceNumber × ObjectDigest

/-- Modelled from the spec: the `Owner` access-control descriptor attached to
an object (`sui_types::object::Owner`, not under src/). -/
inductive Owner where
| AddressOwner (a : SuiAddress)
| Shared (initial_version : SequenceNumber)
| Immutable
deriving DecidableEq, Repr

/-- Modelled from the spec: a resolved object as returned by the object store
(`sui_types::object::Object`, not under src/); carries its identity, version,
contents and whether it is a published package (`Object::is_package`). -/
structure Object where
id : ObjectID
version : SequenceNumber
contents : List Nat
is_package : Bool
deriving DecidableEq, Repr

/-- A move-call record: (package id, module name, function name). -/
abbrev MoveCallRec := ObjectID × Identifier × Identifier

/-- Modelled from the spec: the transaction's logical content
(`sui_types::transaction::TransactionData`, not under src/); exposes its
recorded move calls in call order. -/
structure TransactionData where
move_calls : List MoveCallRec
deriving DecidableEq, Repr

/-- Modelled from the spec: a verified executable transaction wrapping the
transaction data (`cert.intent_message().value`). -/
structure VerifiedExecutableTransaction where
tx_data : TransactionData
deriving DecidableEq, Repr

/-- Modelled from the spec: the effects accessor
(`sui_types::effects::TransactionEffects`, not under src/); exposes, as
ordered sequences, the created / mutated / deleted / wrapped / unwrapped /
unwrapped-then-deleted object references and a gas cost summary. -/
structure TransactionEffects where
created : List (ObjectRef × Owner)
mutated : List (ObjectRef × Owner)
deleted : List ObjectRef
wrapped : List ObjectRef
unwrapped : List (ObjectRef × Owner)
unwrapped_then_deleted : List ObjectRef
gas_cost_summary : GasCostSummary
deriving DecidableEq, Repr

/-- Modelled from the spec: the object resolver
(`sui_types::storage::ObjectStore`, not under src/):
`get_object_by_key(id, version)` returns `Ok(None)` when no such object
exists and `Err` on an actual store fault. -/
structure ObjectStore where
get_object_by_key : ObjectID → SequenceNumber → Except String (Option Object)

/-- The closed enumeration of event kinds (`TxInfoNodeStreamTopic`). -/
inductive TxInfoNodeStreamTopic where
| String
| PackagePublish
| ObjectChangeLight
| ObjectChangeRaw
| MoveCall
| Transaction
| Effects
| GasCostSummary
deriving DecidableEq, Repr

/-- `impl Display for TxInfoNodeStreamTopic`. -/
def TxInfoNodeStreamTopic.toString : TxInfoNodeStreamTopic → Str
| .String => "string"
| .PackagePublish => "package_publish"
| .ObjectChangeLight => "object_change_light"
| .ObjectChangeRaw => "object_change_raw"
| .MoveCall => "move_call"
| .Transaction => "transaction"
| .GasCostSummary => "gas_cost_summary"
| .Effects => "effects"

/-- `impl FromStr for TxInfoNodeStreamTopic`. -/
def TxInfoNodeStreamTopic.fromStr (s : Str) : Except Str TxInfoNodeStreamTopic :=
if s = "string" then .ok .String
else if s = "package_publish" then .ok .PackagePublish
else if s = "object_change_light" then .ok .ObjectChangeLight
else if s = "object_change_raw" then .ok .ObjectChangeRaw
else if s = "move_call" then .ok .MoveCall
else if s = "transaction" then .ok .Transaction
else if s = "effects" then .ok .Effects
else if s = "gas_cost_summary" then .ok .GasCostSummary
else .error "Invalid topic"

/-- Decimal representation of a natural number, as Rust's `u64` `Display`
prints it (no sign, no leading zeros, `"0"` for zero). -/
def natRepr (n : Nat) : String :=
if n = 0 then "0" else ⟨((Nat.digits 10 n).map Nat.digitChar).reverse⟩

/-- `topic_for_epoch`: the epoch-scoped topic string `"{epoch}-{kind}"`. -/
def topic_for_epoch (t : TxInfoNodeStreamTopic) (epoch : Nat) : String :=
natRepr epoch ++ "-" ++ t.toString

/-- The object-change taxonomy (`ObjectChangeStatus`). -/
inductive ObjectChangeStatus where
| Created (r : ObjectRef) (o : Owner)
| Mutated (r : ObjectRef) (o : Owner)
| Deleted (r : ObjectRef)
| Wrapped (r : ObjectRef)
| Unwrapped (r : ObjectRef) (o : Owner)
| UnwrappedThenDeleted (r : ObjectRef)
| LoadedChildObject (id : ObjectID) (seq : SequenceNumber)
deriving DecidableEq, Repr

/-- The event bodies (`TxInfoData`); the `String` body carries the UTF-8
bytes of the Rust string. -/
inductive TxInfoData where
| String (s : List Nat)
| PackagePublish (o : Object)
| ObjectChangeLight (c : ObjectChangeStatus)
| ObjectChangeRaw (c : ObjectChangeStatus) (o : Option Object)
| MoveCall (package : ObjectID) (module : Identifier) (function : Identifier)
| Transaction (t : TransactionData)
| Effects (e : TransactionEffects)
| GasCostSummary (g : GasCostSummary)
deriving DecidableEq, Repr

/-- The per-transaction event metadata (`TxInfoMetadata`). -/
structure TxInfoMetadata where
message_process_timestamp_ms : Nat
checkpoint_id : Nat
sender : SuiAddress
tx_digest : TransactionDigest
deriving DecidableEq, Repr

/-- Modelled from the spec: the generic event payload envelope
(`NodeStreamPayload` from `types_ex`, not under src/), pairing one event
body with the per-transaction metadata (field spelled `metdata` as in the
source's constructor). -/
structure NodeStreamPayload (D M : Type) where
metdata : M
data : D
deriving DecidableEq, Repr

/-- `TxInfoData::to_topic`: the pure map from an event body to its kind. -/
def TxInfoData.to_topic : TxInfoData → TxInfoNodeStreamTopic
| .String _ => .String
| .PackagePublish _ => .PackagePublish
| .ObjectChangeLight _ => .ObjectChangeLight
| .ObjectChangeRaw _ _ => .ObjectChangeRaw
| .MoveCall _ _ _ => .MoveCall
| .Transaction _ => .Transaction
| .GasCostSummary _ => .GasCostSummary
| .Effects _ => .Effects

/-- The (id, version) key a change's raw bytes are resolved at: the
reference's id and version for the six reference-bearing variants, the
stored id and version for a loaded child. -/
def ObjectChangeStatus.refKey : ObjectChangeStatus → ObjectID × SequenceNumber
| .Created r _ => (r.1, r.2.1)
| .Mutated r _ => (r.1, r.2.1)
| .Deleted r => (r.1, r.2.1)
| .Wrapped r => (r.1, r.2.1)
| .Unwrapped r _ => (r.1, r.2.1)
| .UnwrappedThenDeleted r => (r.1, r.2.1)
| .LoadedChildObject id seq => (id, seq)

/-- Whether a change carries a full object reference (every variant except
`LoadedChildObject`); mirrors the or-pattern of the source's resolve match. -/
def ObjectChangeStatus.hasRef : ObjectChangeStatus → Bool
| .Created _ _ => true
| .Mutated _ _ => true
| .Deleted _ => true
| .Wrapped _ => true
| .Unwrapped _ _ => true
| .UnwrappedThenDeleted _ => true
| .LoadedChildObject _ _ => false

/-- One step of the source's resolve pass over `result`: for an
`ObjectChangeLight` item, resolve the object by key (`.expect` on a store
error modelled as error propagation), push a `PackagePublish` side event
when a reference-bearing change resolved to a package, and produce the
`ObjectChangeRaw` item; any other item contributes nothing. -/
def resolveOne (store : ObjectStore) (q : TxInfoData) :
    Except String (List TxInfoData × List TxInfoData) :=
match q with
| .ObjectChangeLight change =>
  if change.hasRef then
    match store.get_object_by_key change.refKey.1 change.refKey.2 with
    | .error e => .error e
    | .ok obj =>
      .ok
        (match obj with
         | some o => if o.is_package then [TxInfoData.PackagePublish o] else []
         | none => [],
         [TxInfoData.ObjectChangeRaw change obj])
  else
    match store.get_object_by_key change.refKey.1 change.refKey.2 with
    | .error e => .error e
    | .ok obj => .ok ([], [TxInfoData.ObjectChangeRaw change obj])
| _ => .ok ([], [])

/-- The source's "Get the objects" pass: iterate over the accumulated list,
collecting the `packages` side vector and the `objects` (raw) vector in
iteration order. -/
def resolveObjects (store : ObjectStore) : List TxInfoData →
    Except String (List TxInfoData × List TxInfoData)
| [] => .ok ([], [])
| q :: rest =>
  match resolveOne store q with
  | .error e => .error e
  | .ok (pk, ob) =>
    match resolveObjects store rest with
    | .error e => .error e
    | .ok (pks, obs) => .ok (pk ++ pks, ob ++ obs)

/-- `TxInfoData::from_post_exec`: the extraction algorithm.  The
`loaded_child_objects` map (a `BTreeMap`) is modelled as its entry list in
ascending key order.  A store fault (the source's `.expect("DB read should
not fail")` panic) aborts the whole extraction with `.error`. -/
def TxInfoData.from_post_exec (cert : VerifiedExecutableTransaction)
    (effects : TransactionEffects)
    (loaded_child_objects : List (ObjectID × SequenceNumber))
    (store : ObjectStore) : Except Str (List TxInfoData) :=
let result : List TxInfoData :=
  effects.created.map (fun q => .ObjectChangeLight (.Created q.1 q.2))
  ++ effects.mutated.map (fun q => .ObjectChangeLight (.Mutated q.1 q.2))
  ++ effects.deleted.map (fun q => .ObjectChangeLight (.Deleted q))
  ++ effects.wrapped.map (fun q => .ObjectChangeLight (.Wrapped q))
  ++ effects.unwrapped.map (fun q => .ObjectChangeLight (.Unwrapped q.1 q.2))
  ++ effects.unwrapped_then_deleted.map
      (fun q => .ObjectChangeLight (.UnwrappedThenDeleted q))
  ++ loaded_child_objects.map
      (fun q => .ObjectChangeLight (.LoadedChildObject q.1 q.2))
match resolveObjects store result with
| .error e => .error e
| .ok (packages, objects) =>
  .ok (result ++ packages ++ objects
    ++ [.GasCostSummary effects.gas_cost_summary]
    ++ cert.tx_data.move_calls.map (fun q => .MoveCall q.1 q.2.1 q.2.2)
    ++ [.Effects effects]
    ++ [.Transaction cert.tx_data])

/-- Top-level `from_post_exec`: wrap each extracted body in an envelope
carrying the caller-supplied metadata and pair it with its topic. -/
def from_post_exec (message_process_timestamp_ms : Nat) (checkpoint_id : Nat)
    (sender : SuiAddress) (tx_digest : TransactionDigest)
    (cert : VerifiedExecutableTransaction) (effects : TransactionEffects)
    (loaded_child_objects : List (ObjectID × SequenceNumber))
    (store : ObjectStore) :
    Except String
      (List (NodeStreamPayload TxInfoData TxInfoMetadata × TxInfoNodeStreamTopic)) :=
match TxInfoData.from_post_exec cert effects loaded_child_objects store with
| .error e => .error e
| .ok datas =>
  .ok (datas.map fun data =>
    ({ metdata :=
        { message_process_timestamp_ms := message_process_timestamp_ms
          checkpoint_id := checkpoint_id
          sender := sender
          tx_digest := tx_digest }
       data := data }, data.to_topic))

/-! Specification-side views of the extraction, used to state the ordering
and content theorems. -/

/-- The light-change sequence in the source's category order: created,
mutated, deleted, wrapped, unwrapped, unwrapped-then-deleted, then the
loaded-child entries in map order. -/
def lightChanges (effects : TransactionEffects)
    (loaded_child_objects : List (ObjectID × SequenceNumber)) :
    List ObjectChangeStatus :=
effects.created.map (fun q => .Created q.1 q.2)
++ effects.mutated.map (fun q => .Mutated q.1 q.2)
++ effects.deleted.map (fun q => .Deleted q)
++ effects.wrapped.map (fun q => .Wrapped q)
++ effects.unwrapped.map (fun q => .Unwrapped q.1 q.2)
++ effects.unwrapped_then_deleted.map (fun q => .UnwrappedThenDeleted q)
++ loaded_child_objects.map (fun q => .LoadedChildObject q.1 q.2)

/-- The store's answer at a change's key when the store does not fault. -/
def storeGetOk (store : ObjectStore) (id : ObjectID) (v : SequenceNumber) :
    Option Object :=
match store.get_object_by_key id v with
| .ok o => o
| .error _ => none

/-- Whether the store answers without a fault at a change's key. -/
def storeOkAt (store : ObjectStore) (c : ObjectChangeStatus) : Bool :=
match store.get_object_by_key c.refKey.1 c.refKey.2 with
| .ok _ => true
| .error _ => false

/-- The resolution of one change. -/
def resolveChange (store : ObjectStore) (c : ObjectChangeStatus) : Option Object :=
storeGetOk store c.refKey.1 c.refKey.2

/-- Whether a change triggers a package side event: it must carry a full
reference and resolve to a package object. -/
def isPackageResolution (store : ObjectStore) (c : ObjectChangeStatus) : Bool :=
c.hasRef &&
  (match resolveChange store c with
   | some o => o.is_package
   | none => false)

/-- The package side events, in object-emission order. -/
def packageEvents (store : ObjectStore) (cs : List ObjectChangeStatus) :
    List TxInfoData :=
cs.filterMap fun c =>
  if c.hasRef then
    match resolveChange store c with
    | some o => if o.is_package then some (.PackagePublish o) else none
    | none => none
  else none

/-- The raw change events, one per light change in the same order. -/
def rawEvents (store : ObjectStore) (cs : List ObjectChangeStatus) :
    List TxInfoData :=
cs.map fun c => .ObjectChangeRaw c (resolveChange store c)

/-- Recognizer for `PackagePublish` events. -/
def TxInfoData.isPP : TxInfoData → Bool
| .PackagePublish _ => true
| _ => false

/-- The full output list as the specification describes it: light changes,
package side events, raw changes, gas, move calls, effects, transaction. -/
def specOutput (cert : VerifiedExecutableTransaction)
    (effects : TransactionEffects)
    (loaded_child_objects : List (ObjectID × SequenceNumber))
    (store : ObjectStore) : List TxInfoData :=
(lightChanges effects loaded_child_objects).map .ObjectChangeLight
++ packageEvents store (lightChanges effects loaded_child_objects)
++ rawEvents store (lightChanges effects loaded_child_objects)
++ [.GasCostSummary effects.gas_cost_summary]
++ cert.tx_data.move_calls.map (fun q => .MoveCall q.1 q.2.1 q.2.2)
++ [.Effects effects]
++ [.Transaction cert.tx_data]

/-! The binary codec.  Modelled from the spec: the `bcs`-backed
`payload_to_bytes` / `payload_from_bytes` of the `NodeStreamPerEpochTopic`
implementation (the `bcs` crate and the `types_ex` trait are not under
src/).  A canonical, compact, length-prefixed binary form: scalars and
lengths are ULEB128-encoded (the decoder rejects non-canonical encodings),
enum variants carry their index, sequences a length prefix, options a
presence byte; decoding consumes the whole input or fails. -/

/-- ULEB128 encoding of a natural number. -/
def ulebEncode (n : Nat) : List Nat :=
if h : n < 128 then [n]
else (n % 128 + 128) :: ulebEncode (n / 128)
decreasing_by exact Nat.div_lt_self (by omega) (by omega)

/-- ULEB128 decoding; rejects non-canonical encodings (a continuation whose
remaining value is zero) and non-byte symbols. -/
def ulebDecode : List Nat → Option (Nat × List Nat)
| [] => none
| b :: rest =>
  if b < 128 then some (b, rest)
  else if b < 256 then
    match ulebDecode rest with
    | some (m, r) => if m = 0 then none else some (m * 128 + (b - 128), r)
    | none => none
  else none

/-- A length-prefixed byte string. -/
def encodeBytes (bs : List Nat) : List Nat :=
ulebEncode bs.length ++ bs

/-- Read exactly `n` raw symbols. -/
def decodeRaw (n : Nat) (b : List Nat) : Option (List Nat × List Nat) :=
if n ≤ b.length then some (b.take n, b.drop n) else none

def decodeBytes (b : List Nat) : Option (List Nat × List Nat) :=
match ulebDecode b with
| some (n, r) => decodeRaw n r
| none => none

/-- A length-prefixed sequence of encoded elements. -/
def encodeSeq (enc : α → List Nat) (xs : List α) : List Nat :=
ulebEncode xs.length ++ (xs.map enc).flatten

/-- Read exactly `n` elements with the given element decoder. -/
def decodeCount (dec : List Nat → Option (α × List Nat)) :
    Nat → List Nat → Option (List α × List Nat)
| 0, b => some ([], b)
| n + 1, b =>
  match dec b with
  | some (x, r) =>
    match decodeCount dec n r with
    | some (xs, r2) => some (x :: xs, r2)
    | none => none
  | none => none

def decodeSeq (dec : List Nat → Option (α × List Nat)) (b : List Nat) :
    Option (List α × List Nat) :=
match ulebDecode b with
| some (n, r) => decodeCount dec n r
| none => none

def encodeBool (x : Bool) : List Nat := [if x then 1 else 0]

def decodeBool : List Nat → Option (Bool × List Nat)
| 0 :: r => some (false, r)
| 1 :: r => some (true, r)
| _ => none

def encodeOption (enc : α → List Nat) : Option α → List Nat
| none => [0]
| some x => 1 :: enc x

def decodeOption (dec : List Nat → Option (α × List Nat)) :
    List Nat → Option (Option α × List Nat)
| 0 :: r => some (none, r)
| 1 :: r =>
  match dec r with
  | some (x, r2) => some (some x, r2)
  | none => none
| _ => none

def encodeObjectRef (r : ObjectRef) : List Nat :=
ulebEncode r.1 ++ ulebEncode r.2.1 ++ ulebEncode r.2.2

def decodeObjectRef (b : List Nat) : Option (ObjectRef × List Nat) :=
match ulebDecode b with
| some (i, r1) =>
  match ulebDecode r1 with
  | some (v, r2) =>
    match ulebDecode r2 with
    | some (d, r3) => some ((i, v, d), r3)
    | none => none
  | none => none
| none => none

def encodeOwner : Owner → List Nat
| .AddressOwner a => 0 :: ulebEncode a
| .Shared v => 1 :: ulebEncode v
| .Immutable => [2]

def decodeOwner : List Nat → Option (Owner × List Nat)
| 0 :: r =>
  match ulebDecode r with
  | some (a, r2) => some (.AddressOwner a, r2)
  | none => none
| 1 :: r =>
  match ulebDecode r with
  | some (v, r2) => some (.Shared v, r2)
  | none => none
| 2 :: r => some (.Immutable, r)
| _ => none

def encodeObject (o : Object) : List Nat :=
ulebEncode o.id ++ ulebEncode o.version ++ encodeBytes o.contents
  ++ encodeBool o.is_package

def decodeObject (b : List Nat) : Option (Object × List Nat) :=
match ulebDecode b with
| some (i, r1) =>
  match ulebDecode r1 with
  | some (v, r2) =>
    match decodeBytes r2 with
    | some (cs, r3) =>
      match decodeBool r3 with
      | some (p, r4) => some (⟨i, v, cs, p⟩, r4)
      | none => none
    | none => none
  | none => none
| none => none

def encodeChange : ObjectChangeStatus → List Nat
| .Created r o => 0 :: encodeObjectRef r ++ encodeOwner o
| .Mutated r o => 1 :: encodeObjectRef r ++ encodeOwner o
| .Deleted r => 2 :: encodeObjectRef r
| .Wrapped r => 3 :: encodeObjectRef r
| .Unwrapped r o => 4 :: encodeObjectRef r ++ encodeOwner o
| .UnwrappedThenDeleted r => 5 :: encodeObjectRef r
| .LoadedChildObject id seq => 6 :: ulebEncode id ++ ulebEncode seq

def decodeRefOwner (b : List Nat) : Option ((ObjectRef × Owner) × List Nat) :=
match decodeObjectRef b with
| some (r, r1) =>
  match decodeOwner r1 with
  | some (o, r2) => some ((r, o), r2)
  | none => none
| none => none

def decodeChange : List Nat → Option (ObjectChangeStatus × List Nat)
| 0 :: b =>
  match decodeRefOwner b with
  | some ((r, o), r2) => some (.Created r o, r2)
  | none => none
| 1 :: b =>
  match decodeRefOwner b with
  | some ((r, o), r2) => some (.Mutated r o, r2)
  | none => none
| 2 :: b =>
  match decodeObjectRef b with
  | some (r, r2) => some (.Deleted r, r2)
  | none => none
| 3 :: b =>
  match decodeObjectRef b with
  | some (r, r2) => some (.Wrapped r, r2)
  | none => none
| 4 :: b =>
  match decodeRefOwner b with
  | some ((r, o), r2) => some (.Unwrapped r o, r2)
  | none => none
| 5 :: b =>
  match decodeObjectRef b with
  | some (r, r2) => some (.UnwrappedThenDeleted r, r2)
  | none => none
| 6 :: b =>
  match ulebDecode b with
  | some (i, r1) =>
    match ulebDecode r1 with
    | some (s, r2) => some (.LoadedChildObject i s, r2)
    | none => none
  | none => none
| _ => none

def encodeMoveCallRec (m : MoveCallRec) : List Nat :=
ulebEncode m.1 ++ encodeBytes m.2.1 ++ encodeBytes m.2.2

def decodeMoveCallRec (b : List Nat) : Option (MoveCallRec × List Nat) :=
match ulebDecode b with
| some (p, r1) =>
  match decodeBytes r1 with
  | some (m, r2) =>
    match decodeBytes r2 with
    | some (f, r3) => some ((p, m, f), r3)
    | none => none
  | none => none
| none => none

def encodeTransactionData (t : TransactionData) : List Nat :=
encodeSeq encodeMoveCallRec t.move_calls

def decodeTransactionData (b : List Nat) : Option (TransactionData × List Nat) :=
match decodeSeq decodeMoveCallRec b with
| some (ms, r) => some (⟨ms⟩, r)
| none => none

def encodeRefOwnerPair (q : ObjectRef × Owner) : List Nat :=
encodeObjectRef q.1 ++ encodeOwner q.2

def encodeEffects (e : TransactionEffects) : List Nat :=
encodeSeq encodeRefOwnerPair e.created
++ encodeSeq encodeRefOwnerPair e.mutated
++ encodeSeq encodeObjectRef e.deleted
++ encodeSeq encodeObjectRef e.wrapped
++ encodeSeq encodeRefOwnerPair e.unwrapped
++ encodeSeq encodeObjectRef e.unwrapped_then_deleted
++ ulebEncode e.gas_cost_summary

def decodeEffects (b : List Nat) : Option (TransactionEffects × List Nat) :=
match decodeSeq decodeRefOwner b with
| some (cr, r1) =>
  match decodeSeq decodeRefOwner r1 with
  | some (mu, r2) =>
    match decodeSeq decodeObjectRef r2 with
    | some (de, r3) =>
      match decodeSeq decodeObjectRef r3 with
      | some (wr, r4) =>
        match decodeSeq decodeRefOwner r4 with
        | some (uw, r5) =>
          match decodeSeq decodeObjectRef r5 with
          | some (ud, r6) =>
            match ulebDecode r6 with
            | some (g, r7) => some (⟨cr, mu, de, wr, uw, ud, g⟩, r7)
            | none => none
          | none => none
        | none => none
      | none => none
    | none => none
  | none => none
| none => none

def encodeData : TxInfoData → List Nat
| .String s => 0 :: encodeBytes s
| .PackagePublish o => 1 :: encodeObject o
| .ObjectChangeLight c => 2 :: encodeChange c
| .ObjectChangeRaw c o => 3 :: encodeChange c ++ encodeOption encodeObject o
| .MoveCall p m f => 4 :: ulebEncode p ++ encodeBytes m ++ encodeBytes f
| .Transaction t => 5 :: encodeTransactionData t
| .Effects e => 6 :: encodeEffects e
| .GasCostSummary g => 7 :: ulebEncode g

def decodeData : List Nat → Option (TxInfoData × List Nat)
| 0 :: b =>
  match decodeBytes b with
  | some (s, r) => some (.String s, r)
  | none => none
| 1 :: b =>
  match decodeObject b with
  | some (o, r) => some (.PackagePublish o, r)
  | none => none
| 2 :: b =>
  match decodeChange b with
  | some (c, r) => some (.ObjectChangeLight c, r)
  | none => none
| 3 :: b =>
  match decodeChange b with
  | some (c, r1) =>
    match decodeOption decodeObject r1 with
    | some (o, r2) => some (.ObjectChangeRaw c o, r2)
    | none => none
  | none => none
| 4 :: b =>
  match ulebDecode b with
  | some (p, r1) =>
    match decodeBytes r1 with
    | some (m, r2) =>
      match decodeBytes r2 with
      | some (f, r3) => some (.MoveCall p m f, r3)
      | none => none
    | none => none
  | none => none
| 5 :: b =>
  match decodeTransactionData b with
  | some (t, r) => some (.Transaction t, r)
  | none => none
| 6 :: b =>
  match decodeEffects b with
  | some (e, r) => some (.Effects e, r)
  | none => none
| 7 :: b =>
  match ulebDecode b with
  | some (g, r) => some (.GasCostSummary g, r)
  | none => none
| _ => none

def encodeMetadata (m : TxInfoMetadata) : List Nat :=
ulebEncode m.message_process_timestamp_ms ++ ulebEncode m.checkpoint_id
++ ulebEncode m.sender ++ ulebEncode m.tx_digest

def decodeMetadata (b : List Nat) : Option (TxInfoMetadata × List Nat) :=
match ulebDecode b with
| some (t, r1) =>
  match ulebDecode r1 with
  | some (c, r2) =>
    match ulebDecode r2 with
    | some (s, r3) =>
      match ulebDecode r3 with
      | some (d, r4) => some (⟨t, c, s, d⟩, r4)
      | none => none
    | none => none
  | none => none
| none => none

/-- The envelope's encoding: metadata fields, then the event body. -/
def encodePayload (p : NodeStreamPayload TxInfoData TxInfoMetadata) : List Nat :=
encodeMetadata p.metdata ++ encodeData p.data

def decodePayload (b : List Nat) :
    Option (NodeStreamPayload TxInfoData TxInfoMetadata × List Nat) :=
match decodeMetadata b with
| some (m, r1) =>
  match decodeData r1 with
  | some (d, r2) => some (⟨m, d⟩, r2)
  | none => none
| none => none

/-- `payload_to_bytes`: encoding never fails for well-formed values. -/
def payload_to_bytes (p : NodeStreamPayload TxInfoData TxInfoMetadata) :
    Except Str (List Nat) :=
.ok (encodePayload p)

/-- `payload_from_bytes`: decode, requiring the whole input be consumed. -/
def payload_from_bytes (b : List Nat) :
    Except Str (NodeStreamPayload TxInfoData TxInfoMetadata) :=
match decodePayload b with
| some (p, []) => .ok p
| _ => .error "decode error"


/-! Codec correctness: each decoder inverts its encoder on any input that
starts with an encoding, and only accepts inputs of that shape. -/

theorem ulebDecode_encode (n : Nat) (rest : List Nat) :
    ulebDecode (ulebEncode n ++ rest) = some (n, rest) := by
induction n using Nat.strong_induction_on with
| _ n ih =>
  rw [ulebEncode]
  by_cases h : n < 128
  · simp [h, ulebDecode]
  · have h1 : ¬ n % 128 + 128 < 128 := by omega
    have hm : n % 128 < 128 := Nat.mod_lt _ (by omega)
    have h2 : n % 128 + 128 < 256 := by omega
    have h3 : n / 128 < n := Nat.div_lt_self (by omega) (by omega)
    have h4 : n / 128 ≠ 0 := by omega
    simp [h, ulebDecode, h1, h2, ih _ h3, h4]
    omega

theorem ulebDecode_sound :
    ∀ (b : List Nat) (n : Nat) (r : List Nat),
      ulebDecode b = some (n, r) → b = ulebEncode n ++ r := by
intro b
induction b with
| nil => intro n r h; simp [ulebDecode] at h
| cons x rest ih =>
  intro n r h
  by_cases hx : x < 128
  · simp [ulebDecode, hx] at h
    obtain ⟨rfl, rfl⟩ := h
    rw [ulebEncode]
    simp [hx]
  · by_cases hx2 : x < 256
    · simp only [ulebDecode, if_neg hx, if_pos hx2] at h
      split at h
      next m r2 hrec =>
        by_cases hm : m = 0
        · rw [if_pos hm] at h
          simp at h
        · rw [if_neg hm] at h
          cases h
          have hb := ih _ _ hrec
          subst hb
          have hn' : ¬ m * 128 + (x - 128) < 128 := by omega
          have e1 : (m * 128 + (x - 128)) % 128 + 128 = x := by omega
          have e2 : (m * 128 + (x - 128)) / 128 = m := by omega
          conv_rhs => rw [ulebEncode]
          rw [dif_neg hn', e1, e2]
          rfl
      next hrec => simp at h
    · simp [ulebDecode, hx, hx2] at h

theorem decodeRaw_append (xs rest : List Nat) :
    decodeRaw xs.length (xs ++ rest) = some (xs, rest) := by
simp [decodeRaw]

theorem decodeRaw_sound (n : Nat) (b l r : List Nat)
    (h : decodeRaw n b = some (l, r)) : b = l ++ r ∧ l.length = n := by
unfold decodeRaw at h
split at h
· simp at h
  obtain ⟨rfl, rfl⟩ := h
  refine ⟨(List.take_append_drop n b).symm, ?_⟩
  simp
  omega
· simp at h

theorem decodeBytes_encode (bs rest : List Nat) :
    decodeBytes (encodeBytes bs ++ rest) = some (bs, rest) := by
simp only [encodeBytes, decodeBytes, List.append_assoc, ulebDecode_encode]
exact decodeRaw_append bs rest

theorem decodeBytes_sound (b l r : List Nat)
    (h : decodeBytes b = some (l, r)) : b = encodeBytes l ++ r := by
unfold decodeBytes at h
split at h
next n r1 h1 =>
  obtain ⟨hr1, hlen⟩ := decodeRaw_sound n r1 l r h
  rw [ulebDecode_sound b n r1 h1, hr1, ← hlen]
  simp [encodeBytes]
next h1 => simp at h

theorem decodeCount_encode {α : Type} {enc : α → List Nat}
    {dec : List Nat → Option (α × List Nat)}
    (henc : ∀ (x : α) (rest : List Nat), dec (enc x ++ rest) = some (x, rest))
    (xs : List α) (rest : List Nat) :
    decodeCount dec xs.length ((xs.map enc).flatten ++ rest) = some (xs, rest) := by
induction xs with
| nil => simp [decodeCount]
| cons x xs ih =>
  simp only [List.map_cons, List.flatten_cons, List.length_cons,
    List.append_assoc, decodeCount, henc x, ih]

theorem decodeCount_sound {α : Type} {enc : α → List Nat}
    {dec : List Nat → Option (α × List Nat)}
    (hsound : ∀ (b : List Nat) (x : α) (r : List Nat),
      dec b = some (x, r) → b = enc x ++ r) :
    ∀ (n : Nat) (b : List Nat) (xs : List α) (r : List Nat),
      decodeCount dec n b = some (xs, r) →
      b = (xs.map enc).flatten ++ r ∧ xs.length = n := by
intro n
induction n with
| zero =>
  intro b xs r hd
  simp [decodeCount] at hd
  obtain ⟨rfl, rfl⟩ := hd
  simp
| succ n ih =>
  intro b xs r hd
  unfold decodeCount at hd
  split at hd
  next x r1 h1 =>
    split at hd
    next xs2 r2 h2 =>
      cases hd
      obtain ⟨hr1, hlen⟩ := ih _ _ _ h2
      have hb := hsound _ _ _ h1
      subst hb hr1
      simp [hlen]
    next h2 => simp at hd
  next h1 => simp at hd

theorem decodeSeq_encode {α : Type} {enc : α → List Nat}
    {dec : List Nat → Option (α × List Nat)}
    (henc : ∀ (x : α) (rest : List Nat), dec (enc x ++ rest) = some (x, rest))
    (xs : List α) (rest : List Nat) :
    decodeSeq dec (encodeSeq enc xs ++ rest) = some (xs, rest) := by
simp only [encodeSeq, decodeSeq, List.append_assoc, ulebDecode_encode]
exact decodeCount_encode henc xs rest

theorem decodeSeq_sound {α : Type} {enc : α → List Nat}
    {dec : List Nat → Option (α × List Nat)}
    (hsound : ∀ (b : List Nat) (x : α) (r : List Nat),
      dec b = some (x, r) → b = enc x ++ r) :
    ∀ (b : List Nat) (xs : List α) (r : List Nat),
      decodeSeq dec b = some (xs, r) → b = encodeSeq enc xs ++ r := by
intro b xs r hd
unfold decodeSeq at hd
split at hd
next n r1 h1 =>
  obtain ⟨hr1, hlen⟩ := decodeCount_sound hsound n r1 xs r hd
  rw [ulebDecode_sound b n r1 h1, hr1, ← hlen]
  simp [encodeSeq]
next h1 => simp at hd

theorem decodeBool_encode (x : Bool) (rest : List Nat) :
    decodeBool (encodeBool x ++ rest) = some (x, rest) := by
cases x <;> simp [encodeBool, decodeBool]

theorem decodeBool_sound (b : List Nat) (x : Bool) (r : List Nat)
    (hd : decodeBool b = some (x, r)) : b = encodeBool x ++ r := by
unfold decodeBool at hd
split at hd
next r2 =>
  cases hd
  simp [encodeBool]
next r2 =>
  cases hd
  simp [encodeBool]
next => simp at hd

theorem decodeOption_encode {α : Type} {enc : α → List Nat}
    {dec : List Nat → Option (α × List Nat)}
    (henc : ∀ (x : α) (rest : List Nat), dec (enc x ++ rest) = some (x, rest))
    (x : Option α) (rest : List Nat) :
    decodeOption dec (encodeOption enc x ++ rest) = some (x, rest) := by
cases x with
| none => simp [encodeOption, decodeOption]
| some v => simp [encodeOption, decodeOption, henc v]

theorem decodeOption_sound {α : Type} {enc : α → List Nat}
    {dec : List Nat → Option (α × List Nat)}
    (hsound : ∀ (b : List Nat) (x : α) (r : List Nat),
      dec b = some (x, r) → b = enc x ++ r) :
    ∀ (b : List Nat) (x : Option α) (r : List Nat),
      decodeOption dec b = some (x, r) → b = encodeOption enc x ++ r := by
intro b x r hd
unfold decodeOption at hd
split at hd
next r2 =>
  cases hd
  simp [encodeOption]
next r2 =>
  split at hd
  next v r3 h1 =>
    cases hd
    rw [hsound _ _ _ h1]
    simp [encodeOption]
  next h1 => simp at hd
next => simp at hd

theorem decodeObjectRef_encode (x : ObjectRef) (rest : List Nat) :
    decodeObjectRef (encodeObjectRef x ++ rest) = some (x, rest) := by
obtain ⟨i, v, d⟩ := x
simp [encodeObjectRef, decodeObjectRef, List.append_assoc, ulebDecode_encode]

theorem decodeObjectRef_sound (b : List Nat) (x : ObjectRef) (r : List Nat)
    (hd : decodeObjectRef b = some (x, r)) : b = encodeObjectRef x ++ r := by
unfold decodeObjectRef at hd
split at hd
next i r1 h1 =>
  split at hd
  next v r2 h2 =>
    split at hd
    next d r3 h3 =>
      cases hd
      rw [ulebDecode_sound _ _ _ h1, ulebDecode_sound _ _ _ h2,
        ulebDecode_sound _ _ _ h3]
      simp [encodeObjectRef]
    next h3 => simp at hd
  next h2 => simp at hd
next h1 => simp at hd

theorem decodeOwner_encode (x : Owner) (rest : List Nat) :
    decodeOwner (encodeOwner x ++ rest) = some (x, rest) := by
cases x <;> simp [encodeOwner, decodeOwner, ulebDecode_encode]

theorem decodeOwner_sound (b : List Nat) (x : Owner) (r : List Nat)
    (hd : decodeOwner b = some (x, r)) : b = encodeOwner x ++ r := by
unfold decodeOwner at hd
split at hd
next r2 =>
  split at hd
  next a r3 h1 =>
    cases hd
    rw [ulebDecode_sound _ _ _ h1]
    simp [encodeOwner]
  next h1 => simp at hd
next r2 =>
  split at hd
  next v r3 h1 =>
    cases hd
    rw [ulebDecode_sound _ _ _ h1]
    simp [encodeOwner]
  next h1 => simp at hd
next r2 =>
  cases hd
  simp [encodeOwner]
next => simp at hd
theorem decodeRefOwner_encode2 (a : ObjectRef) (w : Owner) (rest : List Nat) :
    decodeRefOwner (encodeObjectRef a ++ (encodeOwner w ++ rest)) =
      some ((a, w), rest) := by
simp [decodeRefOwner, decodeObjectRef_encode, decodeOwner_encode]

theorem decodeRefOwner_encode (q : ObjectRef × Owner) (rest : List Nat) :
    decodeRefOwner (encodeRefOwnerPair q ++ rest) = some (q, rest) := by
obtain ⟨a, w⟩ := q
simp [encodeRefOwnerPair, List.append_assoc, decodeRefOwner_encode2]

theorem decodeRefOwner_sound (b : List Nat) (q : ObjectRef × Owner)
    (r : List Nat) (hd : decodeRefOwner b = some (q, r)) :
    b = encodeRefOwnerPair q ++ r := by
unfold decodeRefOwner at hd
split at hd
next rf r1 h1 =>
  split at hd
  next w r2 h2 =>
    cases hd
    rw [decodeObjectRef_sound _ _ _ h1, decodeOwner_sound _ _ _ h2]
    simp [encodeRefOwnerPair]
  next h2 => simp at hd
next h1 => simp at hd

theorem decodeObject_encode (x : Object) (rest : List Nat) :
    decodeObject (encodeObject x ++ rest) = some (x, rest) := by
obtain ⟨i, v, cs, p⟩ := x
simp [encodeObject, decodeObject, List.append_assoc, ulebDecode_encode,
  decodeBytes_encode, decodeBool_encode]

theorem decodeObject_sound (b : List Nat) (x : Object) (r : List Nat)
    (hd : decodeObject b = some (x, r)) : b = encodeObject x ++ r := by
unfold decodeObject at hd
split at hd
next i r1 h1 =>
  split at hd
  next v r2 h2 =>
    split at hd
    next cs r3 h3 =>
      split at hd
      next p r4 h4 =>
        cases hd
        rw [ulebDecode_sound _ _ _ h1, ulebDecode_sound _ _ _ h2,
          decodeBytes_sound _ _ _ h3, decodeBool_sound _ _ _ h4]
        simp [encodeObject]
      next h4 => simp at hd
    next h3 => simp at hd
  next h2 => simp at hd
next h1 => simp at hd

theorem decodeChange_encode (x : ObjectChangeStatus) (rest : List Nat) :
    decodeChange (encodeChange x ++ rest) = some (x, rest) := by
cases x <;>
  simp [encodeChange, decodeChange, List.append_assoc, decodeRefOwner_encode2,
    decodeObjectRef_encode, ulebDecode_encode]

theorem decodeChange_sound (b : List Nat) (x : ObjectChangeStatus)
    (r : List Nat) (hd : decodeChange b = some (x, r)) :
    b = encodeChange x ++ r := by
unfold decodeChange at hd
split at hd
next b2 =>
  split at hd
  next rf w r2 h1 =>
    cases hd
    rw [decodeRefOwner_sound _ _ _ h1]
    simp [encodeChange, encodeRefOwnerPair, List.append_assoc]
  next h1 => simp at hd
next b2 =>
  split at hd
  next rf w r2 h1 =>
    cases hd
    rw [decodeRefOwner_sound _ _ _ h1]
    simp [encodeChange, encodeRefOwnerPair, List.append_assoc]
  next h1 => simp at hd
next b2 =>
  split at hd
  next rf r2 h1 =>
    cases hd
    rw [decodeObjectRef_sound _ _ _ h1]
    simp [encodeChange]
  next h1 => simp at hd
next b2 =>
  split at hd
  next rf r2 h1 =>
    cases hd
    rw [decodeObjectRef_sound _ _ _ h1]
    simp [encodeChange]
  next h1 => simp at hd
next b2 =>
  split at hd
  next rf w r2 h1 =>
    cases hd
    rw [decodeRefOwner_sound _ _ _ h1]
    simp [encodeChange, encodeRefOwnerPair, List.append_assoc]
  next h1 => simp at hd
next b2 =>
  split at hd
  next rf r2 h1 =>
    cases hd
    rw [decodeObjectRef_sound _ _ _ h1]
    simp [encodeChange]
  next h1 => simp at hd
next b2 =>
  split at hd
  next i r1 h1 =>
    split at hd
    next sq r2 h2 =>
      cases hd
      rw [ulebDecode_sound _ _ _ h1, ulebDecode_sound _ _ _ h2]
      simp [encodeChange]
    next h2 => simp at hd
  next h1 => simp at hd
next => simp at hd

theorem decodeMoveCallRec_encode (x : MoveCallRec) (rest : List Nat) :
    decodeMoveCallRec (encodeMoveCallRec x ++ rest) = some (x, rest) := by
obtain ⟨p, m, f⟩ := x
simp [encodeMoveCallRec, decodeMoveCallRec, List.append_assoc,
  ulebDecode_encode, decodeBytes_encode]

theorem decodeMoveCallRec_sound (b : List Nat) (x : MoveCallRec) (r : List Nat)
    (hd : decodeMoveCallRec b = some (x, r)) : b = encodeMoveCallRec x ++ r := by
unfold decodeMoveCallRec at hd
split at hd
next p r1 h1 =>
  split at hd
  next m r2 h2 =>
    split at hd
    next f r3 h3 =>
      cases hd
      rw [ulebDecode_sound _ _ _ h1, decodeBytes_sound _ _ _ h2,
        decodeBytes_sound _ _ _ h3]
      simp [encodeMoveCallRec]
    next h3 => simp at hd
  next h2 => simp at hd
next h1 => simp at hd

theorem decodeTransactionData_encode (x : TransactionData) (rest : List Nat) :
    decodeTransactionData (encodeTransactionData x ++ rest) = some (x, rest) := by
simp [encodeTransactionData, decodeTransactionData,
  decodeSeq_encode decodeMoveCallRec_encode]

theorem decodeTransactionData_sound (b : List Nat) (x : TransactionData)
    (r : List Nat) (hd : decodeTransactionData b = some (x, r)) :
    b = encodeTransactionData x ++ r := by
unfold decodeTransactionData at hd
split at hd
next ms r1 h1 =>
  cases hd
  rw [decodeSeq_sound decodeMoveCallRec_sound _ _ _ h1]
  simp [encodeTransactionData]
next h1 => simp at hd

theorem decodeEffects_encode (x : TransactionEffects) (rest : List Nat) :
    decodeEffects (encodeEffects x ++ rest) = some (x, rest) := by
obtain ⟨cr, mu, de, wr, uw, ud, g⟩ := x
simp [encodeEffects, decodeEffects, List.append_assoc,
  decodeSeq_encode decodeRefOwner_encode, decodeSeq_encode decodeObjectRef_encode,
  ulebDecode_encode]

theorem decodeEffects_sound (b : List Nat) (x : TransactionEffects)
    (r : List Nat) (hd : decodeEffects b = some (x, r)) :
    b = encodeEffects x ++ r := by
unfold decodeEffects at hd
split at hd
next cr r1 h1 =>
  split at hd
  next mu r2 h2 =>
    split at hd
    next de r3 h3 =>
      split at hd
      next wr r4 h4 =>
        split at hd
        next uw r5 h5 =>
          split at hd
          next ud r6 h6 =>
            split at hd
            next g r7 h7 =>
              cases hd
              rw [decodeSeq_sound decodeRefOwner_sound _ _ _ h1,
                decodeSeq_sound decodeRefOwner_sound _ _ _ h2,
                decodeSeq_sound decodeObjectRef_sound _ _ _ h3,
                decodeSeq_sound decodeObjectRef_sound _ _ _ h4,
                decodeSeq_sound decodeRefOwner_sound _ _ _ h5,
                decodeSeq_sound decodeObjectRef_sound _ _ _ h6,
                ulebDecode_sound _ _ _ h7]
              simp [encodeEffects]
            next h7 => simp at hd
          next h6 => simp at hd
        next h5 => simp at hd
      next h4 => simp at hd
    next h3 => simp at hd
  next h2 => simp at hd
next h1 => simp at hd

theorem decodeData_encode (x : TxInfoData) (rest : List Nat) :
    decodeData (encodeData x ++ rest) = some (x, rest) := by
cases x <;>
  simp [encodeData, decodeData, List.append_assoc, decodeBytes_encode,
    decodeObject_encode, decodeChange_encode,
    decodeOption_encode decodeObject_encode, ulebDecode_encode,
    decodeTransactionData_encode, decodeEffects_encode]

theorem decodeData_sound (b : List Nat) (x : TxInfoData) (r : List Nat)
    (hd : decodeData b = some (x, r)) : b = encodeData x ++ r := by
unfold decodeData at hd
split at hd
next b2 =>
  split at hd
  next s r2 h1 =>
    cases hd
    rw [decodeBytes_sound _ _ _ h1]
    simp [encodeData]
  next h1 => simp at hd
next b2 =>
  split at hd
  next o r2 h1 =>
    cases hd
    rw [decodeObject_sound _ _ _ h1]
    simp [encodeData]
  next h1 => simp at hd
next b2 =>
  split at hd
  next c r2 h1 =>
    cases hd
    rw [decodeChange_sound _ _ _ h1]
    simp [encodeData]
  next h1 => simp at hd
next b2 =>
  split at hd
  next c r1 h1 =>
    split at hd
    next o r2 h2 =>
      cases hd
      rw [decodeChange_sound _ _ _ h1,
        decodeOption_sound decodeObject_sound _ _ _ h2]
      simp [encodeData, List.append_assoc]
    next h2 => simp at hd
  next h1 => simp at hd
next b2 =>
  split at hd
  next p r1 h1 =>
    split at hd
    next m r2 h2 =>
      split at hd
      next f r3 h3 =>
        cases hd
        rw [ulebDecode_sound _ _ _ h1, decodeBytes_sound _ _ _ h2,
          decodeBytes_sound _ _ _ h3]
        simp [encodeData, List.append_assoc]
      next h3 => simp at hd
    next h2 => simp at hd
  next h1 => simp at hd
next b2 =>
  split at hd
  next t r2 h1 =>
    cases hd
    rw [decodeTransactionData_sound _ _ _ h1]
    simp [encodeData]
  next h1 => simp at hd
next b2 =>
  split at hd
  next e r2 h1 =>
    cases hd
    rw [decodeEffects_sound _ _ _ h1]
    simp [encodeData]
  next h1 => simp at hd
next b2 =>
  split at hd
  next g r2 h1 =>
    cases hd
    rw [ulebDecode_sound _ _ _ h1]
    simp [encodeData]
  next h1 => simp at hd
next => simp at hd

theorem decodeMetadata_encode (x : TxInfoMetadata) (rest : List Nat) :
    decodeMetadata (encodeMetadata x ++ rest) = some (x, rest) := by
obtain ⟨t, c, s, d⟩ := x
simp [encodeMetadata, decodeMetadata, List.append_assoc, ulebDecode_encode]

theorem decodeMetadata_sound (b : List Nat) (x : TxInfoMetadata) (r : List Nat)
    (hd : decodeMetadata b = some (x, r)) : b = encodeMetadata x ++ r := by
unfold decodeMetadata at hd
split at hd
next t r1 h1 =>
  split at hd
  next c r2 h2 =>
    split at hd
    next s r3 h3 =>
      split at hd
      next d r4 h4 =>
        cases hd
        rw [ulebDecode_sound _ _ _ h1, ulebDecode_sound _ _ _ h2,
          ulebDecode_sound _ _ _ h3, ulebDecode_sound _ _ _ h4]
        simp [encodeMetadata]
      next h4 => simp at hd
    next h3 => simp at hd
  next h2 => simp at hd
next h1 => simp at hd

theorem decodePayload_encode (x : NodeStreamPayload TxInfoData TxInfoMetadata)
    (rest : List Nat) :
    decodePayload (encodePayload x ++ rest) = some (x, rest) := by
obtain ⟨m, d⟩ := x
simp [encodePayload, decodePayload, List.append_assoc, decodeMetadata_encode,
  decodeData_encode]

theorem decodePayload_sound (b : List Nat)
    (x : NodeStreamPayload TxInfoData TxInfoMetadata) (r : List Nat)
    (hd : decodePayload b = some (x, r)) : b = encodePayload x ++ r := by
unfold decodePayload at hd
split at hd
next m r1 h1 =>
  split at hd
  next d r2 h2 =>
    cases hd
    rw [decodeMetadata_sound _ _ _ h1, decodeData_sound _ _ _ h2]
    simp [encodePayload]
  next h2 => simp at hd
next h1 => simp at hd

/-! Extraction characterization: with a fault-free store the extraction
equals the specification-side output; any store fault aborts it. -/

theorem result_eq_lights_map (effects : TransactionEffects)
    (locs : List (ObjectID × SequenceNumber)) :
    effects.created.map (fun q => TxInfoData.ObjectChangeLight (.Created q.1 q.2))
    ++ effects.mutated.map (fun q => TxInfoData.ObjectChangeLight (.Mutated q.1 q.2))
    ++ effects.deleted.map (fun q => TxInfoData.ObjectChangeLight (.Deleted q))
    ++ effects.wrapped.map (fun q => TxInfoData.ObjectChangeLight (.Wrapped q))
    ++ effects.unwrapped.map (fun q => TxInfoData.ObjectChangeLight (.Unwrapped q.1 q.2))
    ++ effects.unwrapped_then_deleted.map
        (fun q => TxInfoData.ObjectChangeLight (.UnwrappedThenDeleted q))
    ++ locs.map (fun q => TxInfoData.ObjectChangeLight (.LoadedChildObject q.1 q.2)) =
    (lightChanges effects locs).map TxInfoData.ObjectChangeLight := by
simp only [lightChanges, List.map_append, List.map_map]
rfl

theorem resolveObjects_ok (store : ObjectStore) (cs : List ObjectChangeStatus)
    (h : ∀ c ∈ cs, storeOkAt store c = true) :
    resolveObjects store (cs.map TxInfoData.ObjectChangeLight) =
      .ok (packageEvents store cs, rawEvents store cs) := by
induction cs with
| nil => simp [resolveObjects, packageEvents, rawEvents]
| cons c cs ih =>
  have hc := h c (by simp)
  have hcs : ∀ c2 ∈ cs, storeOkAt store c2 = true :=
    fun c2 hm => h c2 (by simp [hm])
  obtain ⟨o, ho⟩ : ∃ o, store.get_object_by_key c.refKey.1 c.refKey.2 = .ok o := by
    unfold storeOkAt at hc
    split at hc
    next o hh => exact ⟨o, hh⟩
    next => simp at hc
  have hresolve : resolveChange store c = o := by
    simp [resolveChange, storeGetOk, ho]
  by_cases hre : c.hasRef
  · simp only [List.map_cons, resolveObjects, resolveOne, hre, if_pos, ho, ih hcs,
      packageEvents, rawEvents, List.filterMap_cons, List.map_cons, hresolve]
    cases o with
    | none => simp [packageEvents, rawEvents]
    | some oo =>
      by_cases hp : oo.is_package
      · simp [hp, packageEvents, rawEvents]
      · simp [hp, packageEvents, rawEvents]
  · simp only [List.map_cons, resolveObjects, resolveOne, hre, if_neg, Bool.false_eq_true,
      ho, ih hcs, packageEvents, rawEvents, List.filterMap_cons, List.map_cons, hresolve]
    simp [packageEvents, rawEvents]

theorem resolveObjects_error (store : ObjectStore) (cs : List ObjectChangeStatus)
    (h : ∃ c ∈ cs, storeOkAt store c = false) :
    ∃ e, resolveObjects store (cs.map TxInfoData.ObjectChangeLight) = .error e := by
induction cs with
| nil => simp at h
| cons c cs ih =>
  obtain ⟨c0, hc0, herr⟩ := h
  rcases List.mem_cons.mp hc0 with heq | hmem
  · subst heq
    obtain ⟨e, he⟩ : ∃ e, store.get_object_by_key c0.refKey.1 c0.refKey.2 = .error e := by
      unfold storeOkAt at herr
      split at herr
      next => simp at herr
      next e hh => exact ⟨e, hh⟩
    refine ⟨e, ?_⟩
    by_cases hre : c0.hasRef <;>
      simp [resolveObjects, resolveOne, hre, he]
  · cases hro : resolveOne store (TxInfoData.ObjectChangeLight c) with
    | error e => exact ⟨e, by simp [resolveObjects, hro]⟩
    | ok po =>
      obtain ⟨pk, ob⟩ := po
      obtain ⟨e, he⟩ := ih ⟨c0, hmem, herr⟩
      exact ⟨e, by simp [resolveObjects, hro, he]⟩

theorem from_post_exec_ok (cert : VerifiedExecutableTransaction)
    (effects : TransactionEffects) (locs : List (ObjectID × SequenceNumber))
    (store : ObjectStore)
    (h : ∀ c ∈ lightChanges effects locs, storeOkAt store c = true) :
    TxInfoData.from_post_exec cert effects locs store =
      .ok (specOutput cert effects locs store) := by
unfold TxInfoData.from_post_exec
rw [result_eq_lights_map]
simp only [resolveObjects_ok store _ h]
simp [specOutput]

theorem from_post_exec_error (cert : VerifiedExecutableTransaction)
    (effects : TransactionEffects) (locs : List (ObjectID × SequenceNumber))
    (store : ObjectStore)
    (h : ∃ c ∈ lightChanges effects locs, storeOkAt store c = false) :
    ∃ e, TxInfoData.from_post_exec cert effects locs store = .error e := by
unfold TxInfoData.from_post_exec
rw [result_eq_lights_map]
obtain ⟨e, he⟩ := resolveObjects_error store _ h
exact ⟨e, by simp only [he]⟩

theorem from_post_exec_eq (cert : VerifiedExecutableTransaction)
    (effects : TransactionEffects) (locs : List (ObjectID × SequenceNumber))
    (store : ObjectStore) :
    TxInfoData.from_post_exec cert effects locs store =
      match resolveObjects store
          ((lightChanges effects locs).map TxInfoData.ObjectChangeLight) with
      | .error e => .error e
      | .ok (packages, objects) =>
        .ok ((lightChanges effects locs).map TxInfoData.ObjectChangeLight
          ++ packages ++ objects
          ++ [.GasCostSummary effects.gas_cost_summary]
          ++ cert.tx_data.move_calls.map (fun q => .MoveCall q.1 q.2.1 q.2.2)
          ++ [.Effects effects]
          ++ [.Transaction cert.tx_data]) := by
unfold TxInfoData.from_post_exec
rw [result_eq_lights_map]

theorem mem_packageEvents (store : ObjectStore) (cs : List ObjectChangeStatus)
    (c : ObjectChangeStatus) (o : Object) (hc : c ∈ cs) (hre : c.hasRef = true)
    (hres : resolveChange store c = some o) (hp : o.is_package = true) :
    TxInfoData.PackagePublish o ∈ packageEvents store cs := by
unfold packageEvents
refine List.mem_filterMap.mpr ⟨c, hc, ?_⟩
simp [hre, hres, hp]

theorem mem_rawEvents (store : ObjectStore) (cs : List ObjectChangeStatus)
    (c : ObjectChangeStatus) (hc : c ∈ cs) :
    TxInfoData.ObjectChangeRaw c (resolveChange store c) ∈ rawEvents store cs :=
List.mem_map_of_mem _ hc

theorem countP_isPP_packageEvents (store : ObjectStore)
    (cs : List ObjectChangeStatus) :
    (packageEvents store cs).countP TxInfoData.isPP =
      cs.countP (isPackageResolution store) := by
induction cs with
| nil => simp [packageEvents]
| cons c cs ih =>
  simp only [packageEvents, List.filterMap_cons] at ih ⊢
  by_cases hre : c.hasRef
  · cases hres : resolveChange store c with
    | none => simp [hre, hres, List.countP_cons, isPackageResolution, ih]
    | some oo =>
      by_cases hp : oo.is_package
      · simp [hre, hres, hp, List.countP_cons, isPackageResolution, ih,
          TxInfoData.isPP]
      · simp [hre, hres, hp, List.countP_cons, isPackageResolution, ih]
  · simp [hre, List.countP_cons, isPackageResolution, ih]

theorem countP_isPP_zero (l : List TxInfoData)
    (h : ∀ d ∈ l, d.isPP = false) : l.countP TxInfoData.isPP = 0 :=
List.countP_eq_zero.mpr (by intro a ha; simp [h a ha])

theorem countP_isPP_specOutput (cert : VerifiedExecutableTransaction)
    (effects : TransactionEffects) (locs : List (ObjectID × SequenceNumber))
    (store : ObjectStore) :
    (specOutput cert effects locs store).countP TxInfoData.isPP =
      (lightChanges effects locs).countP (isPackageResolution store) := by
unfold specOutput
simp only [List.countP_append, countP_isPP_packageEvents]
rw [countP_isPP_zero ((lightChanges effects locs).map TxInfoData.ObjectChangeLight)
    (by intro d hd; obtain ⟨c, _, rfl⟩ := List.mem_map.mp hd; rfl),
  countP_isPP_zero (rawEvents store (lightChanges effects locs))
    (by intro d hd; obtain ⟨c, _, rfl⟩ := List.mem_map.mp hd; rfl),
  countP_isPP_zero [TxInfoData.GasCostSummary effects.gas_cost_summary]
    (by intro d hd; simp at hd; subst hd; rfl),
  countP_isPP_zero (cert.tx_data.move_calls.map (fun q => .MoveCall q.1 q.2.1 q.2.2))
    (by intro d hd; obtain ⟨c, _, rfl⟩ := List.mem_map.mp hd; rfl),
  countP_isPP_zero [TxInfoData.Effects effects]
    (by intro d hd; simp at hd; subst hd; rfl),
  countP_isPP_zero [TxInfoData.Transaction cert.tx_data]
    (by intro d hd; simp at hd; subst hd; rfl)]
omega

theorem filter_not_hasRef_refbearing {β : Type} (f : β → ObjectChangeStatus)
    (hf : ∀ x, (f x).hasRef = true) (l : List β) :
    (l.map f).filter (fun c => !c.hasRef) = [] := by
induction l with
| nil => simp
| cons x l ih => simp [hf x, ih]

theorem filter_not_hasRef_loaded {β : Type} (f : β → ObjectChangeStatus)
    (hf : ∀ x, (f x).hasRef = false) (l : List β) :
    (l.map f).filter (fun c => !c.hasRef) = l.map f := by
induction l with
| nil => simp
| cons x l ih => simp [hf x, ih]

theorem filter_lights_loaded (effects : TransactionEffects)
    (locs : List (ObjectID × SequenceNumber)) :
    (lightChanges effects locs).filter (fun c => !c.hasRef) =
      locs.map (fun q => ObjectChangeStatus.LoadedChildObject q.1 q.2) := by
unfold lightChanges
simp only [List.filter_append]
rw [filter_not_hasRef_refbearing (fun q => ObjectChangeStatus.Created q.1 q.2)
      (fun x => rfl) effects.created,
  filter_not_hasRef_refbearing (fun q => ObjectChangeStatus.Mutated q.1 q.2)
      (fun x => rfl) effects.mutated,
  filter_not_hasRef_refbearing (fun q => ObjectChangeStatus.Deleted q)
      (fun x => rfl) effects.deleted,
  filter_not_hasRef_refbearing (fun q => ObjectChangeStatus.Wrapped q)
      (fun x => rfl) effects.wrapped,
  filter_not_hasRef_refbearing (fun q => ObjectChangeStatus.Unwrapped q.1 q.2)
      (fun x => rfl) effects.unwrapped,
  filter_not_hasRef_refbearing (fun q => ObjectChangeStatus.UnwrappedThenDeleted q)
      (fun x => rfl) effects.unwrapped_then_deleted,
  filter_not_hasRef_loaded (fun q => ObjectChangeStatus.LoadedChildObject q.1 q.2)
      (fun x => rfl) locs]
simp

theorem resolveOne_no_string (store : ObjectStore) (q : TxInfoData)
    (pk ob : List TxInfoData) (h : resolveOne store q = .ok (pk, ob)) :
    (∀ d ∈ pk, ∀ s, d ≠ TxInfoData.String s) ∧
    (∀ d ∈ ob, ∀ s, d ≠ TxInfoData.String s) := by
cases q
case ObjectChangeLight change =>
  simp only [resolveOne] at h
  by_cases hre : change.hasRef
  · rw [if_pos hre] at h
    cases hst : store.get_object_by_key change.refKey.1 change.refKey.2 with
    | error e => simp [hst] at h
    | ok obj =>
      simp only [hst] at h
      cases obj with
      | none =>
        simp at h
        obtain ⟨h1, h2⟩ := h
        subst h1
        subst h2
        constructor
        · intro d hd s
          simp at hd
        · intro d hd s
          simp at hd
          subst hd
          simp
      | some o =>
        by_cases hp : o.is_package
        · simp [hp] at h
          obtain ⟨h1, h2⟩ := h
          subst h1
          subst h2
          constructor
          · intro d hd s
            simp at hd
            subst hd
            simp
          · intro d hd s
            simp at hd
            subst hd
            simp
        · simp [hp] at h
          obtain ⟨h1, h2⟩ := h
          subst h1
          subst h2
          constructor
          · intro d hd s
            simp at hd
          · intro d hd s
            simp at hd
            subst hd
            simp
  · rw [if_neg hre] at h
    cases hst : store.get_object_by_key change.refKey.1 change.refKey.2 with
    | error e => simp [hst] at h
    | ok obj =>
      simp [hst] at h
      obtain ⟨h1, h2⟩ := h
      subst h1
      subst h2
      constructor
      · intro d hd s
        simp at hd
      · intro d hd s
        simp at hd
        subst hd
        simp
all_goals
  simp only [resolveOne] at h
  cases h
  exact ⟨by intro d hd s; simp at hd, by intro d hd s; simp at hd⟩

theorem resolveObjects_no_string (store : ObjectStore) :
    ∀ (xs pk ob : List TxInfoData), resolveObjects store xs = .ok (pk, ob) →
      (∀ d ∈ pk, ∀ s, d ≠ TxInfoData.String s) ∧
      (∀ d ∈ ob, ∀ s, d ≠ TxInfoData.String s) := by
intro xs
induction xs with
| nil =>
  intro pk ob h
  unfold resolveObjects at h
  cases h
  constructor <;> intro d hd s <;> simp at hd
| cons q rest ih =>
  intro pk ob h
  unfold resolveObjects at h
  split at h
  next e h1 => simp at h
  next pk1 ob1 h1 =>
    split at h
    next e h2 => simp at h
    next pks obs h2 =>
      cases h
      obtain ⟨hp1, ho1⟩ := resolveOne_no_string store q _ _ h1
      obtain ⟨hp2, ho2⟩ := ih _ _ h2
      constructor <;> intro d hd s <;> rcases List.mem_append.mp hd with hh | hh
      · exact hp1 d hh s
      · exact hp2 d hh s
      · exact ho1 d hh s
      · exact ho2 d hh s

theorem from_post_exec_no_string (cert : VerifiedExecutableTransaction)
    (effects : TransactionEffects) (locs : List (ObjectID × SequenceNumber))
    (store : ObjectStore) (ds : List TxInfoData)
    (h : TxInfoData.from_post_exec cert effects locs store = .ok ds) :
    ∀ d ∈ ds, ∀ s, d ≠ TxInfoData.String s := by
rw [from_post_exec_eq] at h
split at h
next e h1 => simp at h
next packages objects h1 =>
  cases h
  intro d hd s
  obtain ⟨hp, ho⟩ := resolveObjects_no_string store _ _ _ h1
  simp only [List.append_assoc, List.mem_append] at hd
  rcases hd with hd | hd | hd | hd | hd | hd | hd
  · obtain ⟨c, _, rfl⟩ := List.mem_map.mp hd
    simp
  · exact hp d hd s
  · exact ho d hd s
  · simp at hd
    subst hd
    simp
  · obtain ⟨c, _, rfl⟩ := List.mem_map.mp hd
    simp
  · simp at hd
    subst hd
    simp
  · simp at hd
    subst hd
    simp

/-! Topic-model string lemmas: decimal representations are dash-free and
injective, so epoch-scoped topic strings are injective. -/

theorem digitChar_inj_lt :
    ∀ d1 < 10, ∀ d2 < 10, Nat.digitChar d1 = Nat.digitChar d2 → d1 = d2 := by
decide

theorem digitChar_ne_dash : ∀ d < 10, Nat.digitChar d ≠ '-' := by
decide

theorem map_digitChar_inj :
    ∀ (l1 l2 : List Nat), (∀ d ∈ l1, d < 10) → (∀ d ∈ l2, d < 10) →
      l1.map Nat.digitChar = l2.map Nat.digitChar → l1 = l2 := by
intro l1
induction l1 with
| nil =>
  intro l2 _ _ h
  cases l2 with
  | nil => rfl
  | cons d t => simp at h
| cons d l1 ih =>
  intro l2 h1 h2 h
  cases l2 with
  | nil => simp at h
  | cons d2 l2 =>
    simp at h
    obtain ⟨hd, ht⟩ := h
    have hde := digitChar_inj_lt d (h1 d (by simp)) d2 (h2 d2 (by simp)) hd
    subst hde
    rw [ih l2 (fun x hx => h1 x (by simp [hx])) (fun x hx => h2 x (by simp [hx])) ht]

theorem natRepr_no_dash (n : Nat) : '-' ∉ (natRepr n).data := by
unfold natRepr
split
· decide
· intro hmem
  simp at hmem
  obtain ⟨d, hd, hch⟩ := hmem
  exact digitChar_ne_dash d (Nat.digits_lt_base (by norm_num) hd) hch

theorem natRepr_data_inj (a b : Nat)
    (h : (natRepr a).data = (natRepr b).data) : a = b := by
unfold natRepr at h
by_cases ha : a = 0 <;> by_cases hb : b = 0
· omega
· rw [if_pos ha, if_neg hb] at h
  exfalso
  have hlen := congrArg List.length h
  simp at hlen
  obtain ⟨d, hd⟩ := List.length_eq_one.mp hlen.symm
  rw [hd] at h
  have hdig : d < 10 := Nat.digits_lt_base (by norm_num)
    (show d ∈ Nat.digits 10 b by rw [hd]; simp)
  have hb10 := Nat.ofDigits_digits 10 b
  rw [hd] at hb10
  simp [Nat.ofDigits] at hb10
  have hch : Nat.digitChar d = '0' := by
    have h0 : ("0" : String).data = ['0'] := rfl
    rw [h0] at h
    simp at h
    exact h.symm
  have hd0 : d = 0 := digitChar_inj_lt d hdig 0 (by norm_num) (by rw [hch]; rfl)
  omega
· rw [if_neg ha, if_pos hb] at h
  exfalso
  have hlen := congrArg List.length h
  simp at hlen
  obtain ⟨d, hd⟩ := List.length_eq_one.mp hlen
  rw [hd] at h
  have hdig : d < 10 := Nat.digits_lt_base (by norm_num)
    (show d ∈ Nat.digits 10 a by rw [hd]; simp)
  have ha10 := Nat.ofDigits_digits 10 a
  rw [hd] at ha10
  simp [Nat.ofDigits] at ha10
  have hch : Nat.digitChar d = '0' := by
    have h0 : ("0" : String).data = ['0'] := rfl
    rw [h0] at h
    simp at h
    exact h
  have hd0 : d = 0 := digitChar_inj_lt d hdig 0 (by norm_num) (by rw [hch]; rfl)
  omega
· rw [if_neg ha, if_neg hb] at h
  have h2 : ((Nat.digits 10 a).map Nat.digitChar).reverse =
      ((Nat.digits 10 b).map Nat.digitChar).reverse := h
  have h3 := congrArg List.reverse h2
  simp at h3
  have h4 := map_digitChar_inj _ _
    (fun d hd => Nat.digits_lt_base (by norm_num) hd)
    (fun d hd => Nat.digits_lt_base (by norm_num) hd) h3
  have ha10 := Nat.ofDigits_digits 10 a
  have hb10 := Nat.ofDigits_digits 10 b
  rw [← ha10, ← hb10, h4]

theorem append_cons_inj {α : Type} (c : α) :
    ∀ (xs1 xs2 ys1 ys2 : List α), c ∉ xs1 → c ∉ xs2 →
      xs1 ++ c :: ys1 = xs2 ++ c :: ys2 → xs1 = xs2 ∧ ys1 = ys2 := by
intro xs1
induction xs1 with
| nil =>
  intro xs2 ys1 ys2 h1 h2 h
  cases xs2 with
  | nil =>
    simp at h
    exact ⟨rfl, h⟩
  | cons y t =>
    simp at h
    obtain ⟨hyc, -⟩ := h
    subst hyc
    exact absurd (List.mem_cons_self _ _) h2
| cons x t ih =>
  intro xs2 ys1 ys2 h1 h2 h
  cases xs2 with
  | nil =>
    simp at h
    obtain ⟨hxc, -⟩ := h
    subst hxc
    exact absurd (List.mem_cons_self _ _) h1
  | cons y t2 =>
    simp at h
    obtain ⟨hxy, h⟩ := h
    subst hxy
    have hr := ih t2 ys1 ys2 (fun hm => h1 (by simp [hm]))
      (fun hm => h2 (by simp [hm])) h
    exact ⟨by rw [hr.1], hr.2⟩

theorem topic_toString_inj (k1 k2 : TxInfoNodeStreamTopic)
    (h : (TxInfoNodeStreamTopic.toString k1).data =
      (TxInfoNodeStreamTopic.toString k2).data) : k1 = k2 := by
cases k1 <;> cases k2 <;> first
| rfl
| (exfalso; revert h; decide)

theorem data_append (s t : String) : (s ++ t).data = s.data ++ t.data := rfl

theorem topic_for_epoch_inj (k1 k2 : TxInfoNodeStreamTopic) (e1 e2 : Nat)
    (h : topic_for_epoch k1 e1 = topic_for_epoch k2 e2) : k1 = k2 ∧ e1 = e2 := by
unfold topic_for_epoch at h
have hd := congrArg String.data h
rw [data_append, data_append, data_append, data_append] at hd
rw [show ("-" : String).data = ['-'] from rfl] at hd
simp only [List.append_assoc, List.singleton_append] at hd
obtain ⟨hrep, htop⟩ := append_cons_inj '-' _ _ _ _
  (natRepr_no_dash e1) (natRepr_no_dash e2) hd
exact ⟨topic_toString_inj _ _ htop, natRepr_data_inj _ _ hrep⟩

theorem mem_lightChanges_created (effects : TransactionEffects)
    (locs : List (ObjectID × SequenceNumber)) (r : ObjectRef) (ow : Owner)
    (hm : (r, ow) ∈ effects.created) :
    ObjectChangeStatus.Created r ow ∈ lightChanges effects locs := by
simp only [lightChanges, List.append_assoc, List.mem_append]
exact Or.inl (List.mem_map.mpr ⟨(r, ow), hm, rfl⟩)

theorem mem_lightChanges_mutated (effects : TransactionEffects)
    (locs : List (ObjectID × SequenceNumber)) (r : ObjectRef) (ow : Owner)
    (hm : (r, ow) ∈ effects.mutated) :
    ObjectChangeStatus.Mutated r ow ∈ lightChanges effects locs := by
simp only [lightChanges, List.append_assoc, List.mem_append]
exact Or.inr (Or.inl (List.mem_map.mpr ⟨(r, ow), hm, rfl⟩))

theorem mem_lightChanges_deleted (effects : TransactionEffects)
    (locs : List (ObjectID × SequenceNumber)) (r : ObjectRef)
    (hm : r ∈ effects.deleted) :
    ObjectChangeStatus.Deleted r ∈ lightChanges effects locs := by
simp only [lightChanges, List.append_assoc, List.mem_append]
exact Or.inr (Or.inr (Or.inl (List.mem_map.mpr ⟨r, hm, rfl⟩)))

theorem mem_lightChanges_loaded (effects : TransactionEffects)
    (locs : List (ObjectID × SequenceNumber)) (id : ObjectID)
    (seq : SequenceNumber) (hm : (id, seq) ∈ locs) :
    ObjectChangeStatus.LoadedChildObject id seq ∈ lightChanges effects locs := by
simp only [lightChanges, List.append_assoc, List.mem_append]
exact Or.inr (Or.inr (Or.inr (Or.inr (Or.inr (Or.inr
  (List.mem_map.mpr ⟨(id, seq), hm, rfl⟩))))))

theorem mem_specOutput_light (cert : VerifiedExecutableTransaction)
    (effects : TransactionEffects) (locs : List (ObjectID × SequenceNumber))
    (store : ObjectStore) (c : ObjectChangeStatus)
    (hc : c ∈ lightChanges effects locs) :
    TxInfoData.ObjectChangeLight c ∈ specOutput cert effects locs store := by
simp only [specOutput, List.append_assoc, List.mem_append]
exact Or.inl (List.mem_map.mpr ⟨c, hc, rfl⟩)

theorem mem_specOutput_raw (cert : VerifiedExecutableTransaction)
    (effects : TransactionEffects) (locs : List (ObjectID × SequenceNumber))
    (store : ObjectStore) (c : ObjectChangeStatus)
    (hc : c ∈ lightChanges effects locs) :
    TxInfoData.ObjectChangeRaw c (resolveChange store c) ∈
      specOutput cert effects locs store := by
simp only [specOutput, List.append_assoc, List.mem_append]
exact Or.inr (Or.inr (Or.inl (mem_rawEvents store _ c hc)))

theorem mem_specOutput_package (cert : VerifiedExecutableTransaction)
    (effects : TransactionEffects) (locs : List (ObjectID × SequenceNumber))
    (store : ObjectStore) (c : ObjectChangeStatus) (o : Object)
    (hc : c ∈ lightChanges effects locs) (hre : c.hasRef = true)
    (hres : resolveChange store c = some o) (hp : o.is_package = true) :
    TxInfoData.PackagePublish o ∈ specOutput cert effects locs store := by
simp only [specOutput, List.append_assoc, List.mem_append]
exact Or.inr (Or.inl (mem_packageEvents store _ c o hc hre hres hp))

/-! The claims. -/

/-- C1: for every transaction, effects, loaded-child map and resolver (the
map sorted by key as a BTreeMap is, the resolver fault-free), the extracted
list is exactly: one `ObjectChangeLight` per object in category order
created, mutated, deleted, wrapped, unwrapped, unwrapped-then-deleted, each
in effects order, then the loaded children (in ascending object-id order, as
the second conjunct states), then the `PackagePublish` side events in
object-emission order, then one `ObjectChangeRaw` per light change in the
same relative order, then exactly one `GasCostSummary`, then the move calls
in call order, then exactly one `Effects`, then exactly one `Transaction`
last — the list `specOutput` spells out. -/
theorem extraction_emission_order (cert : VerifiedExecutableTransaction)
    (effects : TransactionEffects) (locs : List (ObjectID × SequenceNumber))
    (store : ObjectStore)
    (hsorted : List.Chain' (fun a b : ObjectID × SequenceNumber => a.1 < b.1) locs)
    (hstore : ∀ c ∈ lightChanges effects locs, storeOkAt store c = true) :
    TxInfoData.from_post_exec cert effects locs store =
      .ok (specOutput cert effects locs store) ∧
    List.Chain' (fun a b : ObjectChangeStatus => a.refKey.1 < b.refKey.1)
      ((lightChanges effects locs).filter (fun c => !c.hasRef)) := by
refine ⟨from_post_exec_ok cert effects locs store hstore, ?_⟩
rw [filter_lights_loaded, List.chain'_map]
exact hsorted

theorem extraction_emission_order_witness :
    TxInfoData.from_post_exec ⟨⟨[(7, [1], [2])]⟩⟩
      ⟨[((1, 1, 0), Owner.Immutable)], [((2, 2, 0), Owner.Immutable)],
        [(3, 3, 0)], [], [], [], 42⟩ [(4, 1), (5, 1)] ⟨fun _ _ => .ok none⟩ =
      .ok (specOutput ⟨⟨[(7, [1], [2])]⟩⟩
        ⟨[((1, 1, 0), Owner.Immutable)], [((2, 2, 0), Owner.Immutable)],
          [(3, 3, 0)], [], [], [], 42⟩ [(4, 1), (5, 1)] ⟨fun _ _ => .ok none⟩) ∧
    List.Chain' (fun a b : ObjectChangeStatus => a.refKey.1 < b.refKey.1)
      ((lightChanges
        ⟨[((1, 1, 0), Owner.Immutable)], [((2, 2, 0), Owner.Immutable)],
          [(3, 3, 0)], [], [], [], 42⟩ [(4, 1), (5, 1)]).filter
        (fun c => !c.hasRef)) :=
extraction_emission_order ⟨⟨[(7, [1], [2])]⟩⟩
  ⟨[((1, 1, 0), Owner.Immutable)], [((2, 2, 0), Owner.Immutable)],
    [(3, 3, 0)], [], [], [], 42⟩ [(4, 1), (5, 1)] ⟨fun _ _ => .ok none⟩
  (by norm_num [List.chain'_cons, List.chain'_singleton]) (by decide)

/-- C2: if the resolver faults (an `Err`, not a `None`) on any object
referenced by a light change, extraction aborts — the source's `.expect`
panic, modelled as `Except.error` — and produces no event list at all. -/
theorem extraction_store_fault_aborts (cert : VerifiedExecutableTransaction)
    (effects : TransactionEffects) (locs : List (ObjectID × SequenceNumber))
    (store : ObjectStore)
    (h : ∃ c ∈ lightChanges effects locs, storeOkAt store c = false) :
    ∃ e, TxInfoData.from_post_exec cert effects locs store = .error e :=
from_post_exec_error cert effects locs store h

theorem extraction_store_fault_aborts_witness :
    ∃ e, TxInfoData.from_post_exec ⟨⟨[]⟩⟩
      ⟨[((1, 1, 0), Owner.Immutable)], [], [], [], [], [], 0⟩ []
      ⟨fun _ _ => .error "fault"⟩ = .error e :=
extraction_store_fault_aborts ⟨⟨[]⟩⟩
  ⟨[((1, 1, 0), Owner.Immutable)], [], [], [], [], [], 0⟩ []
  ⟨fun _ _ => .error "fault"⟩ (by decide)

/-- C3: parsing the formatted name of every defined event kind yields the
kind back, and parsing any string that is not some kind's formatted name
fails with the invalid-topic error. -/
theorem topic_roundtrip :
    (∀ k, TxInfoNodeStreamTopic.fromStr (TxInfoNodeStreamTopic.toString k) =
      .ok k) ∧
    (∀ s : String, (∀ k, s ≠ TxInfoNodeStreamTopic.toString k) →
      TxInfoNodeStreamTopic.fromStr s = .error "Invalid topic") := by
constructor
· intro k
  cases k <;> rfl
· intro s h
  unfold TxInfoNodeStreamTopic.fromStr
  split_ifs with h1 h2 h3 h4 h5 h6 h7 h8
  · exact absurd h1 (h .String)
  · exact absurd h2 (h .PackagePublish)
  · exact absurd h3 (h .ObjectChangeLight)
  · exact absurd h4 (h .ObjectChangeRaw)
  · exact absurd h5 (h .MoveCall)
  · exact absurd h6 (h .Transaction)
  · exact absurd h7 (h .Effects)
  · exact absurd h8 (h .GasCostSummary)
  · rfl

theorem topic_roundtrip_witness :
    TxInfoNodeStreamTopic.fromStr "bogus" = .error "Invalid topic" :=
topic_roundtrip.2 "bogus" (by intro k; cases k <;> decide)

/-- C4: the codec round-trips every constructible envelope exactly
(`payload_from_bytes (payload_to_bytes e) = e`, with encoding never
failing), and decoding succeeds only on exact encodings — so every byte
sequence that is not the encoding of some envelope fails, which covers the
empty input, truncated inputs (any strict prefix of a valid encoding, as the
last conjunct makes explicit) and structurally invalid inputs such as a
valid encoding followed by trailing bytes. -/
theorem payload_codec_roundtrip :
    (∀ p : NodeStreamPayload TxInfoData TxInfoMetadata,
      payload_to_bytes p = .ok (encodePayload p) ∧
      payload_from_bytes (encodePayload p) = .ok p) ∧
    (∀ (b : List Nat) (x : NodeStreamPayload TxInfoData TxInfoMetadata),
      payload_from_bytes b = .ok x → b = encodePayload x) ∧
    (payload_from_bytes [] = .error "decode error") ∧
    (∀ (p : NodeStreamPayload TxInfoData TxInfoMetadata) (pre suf : List Nat),
      encodePayload p = pre ++ suf → suf ≠ [] →
      ∀ x, payload_from_bytes pre ≠ .ok x) := by
have hsound : ∀ (b : List Nat) (x : NodeStreamPayload TxInfoData TxInfoMetadata),
    payload_from_bytes b = .ok x → b = encodePayload x := by
  intro b x h
  unfold payload_from_bytes at h
  split at h
  next x2 heq =>
    cases h
    have hb := decodePayload_sound _ _ _ heq
    rw [List.append_nil] at hb
    exact hb
  next heq => exact absurd h (by simp)
refine ⟨fun p => ⟨rfl, ?_⟩, hsound, rfl, ?_⟩
· unfold payload_from_bytes
  have h := decodePayload_encode p []
  rw [List.append_nil] at h
  rw [h]
· intro p pre suf he hs x hok
  have hpre := hsound pre x hok
  subst hpre
  have h1 := decodePayload_encode x suf
  rw [← he] at h1
  have h2 := decodePayload_encode p []
  rw [List.append_nil] at h2
  rw [h2] at h1
  cases h1
  exact hs rfl

theorem payload_codec_roundtrip_witness :
    (payload_from_bytes [0, 0, 0, 0, 7] ≠
      .ok (⟨⟨0, 0, 0, 0⟩, TxInfoData.GasCostSummary 0⟩ :
        NodeStreamPayload TxInfoData TxInfoMetadata)) ∧
    [0, 0, 0, 0, 7, 0] =
      encodePayload (⟨⟨0, 0, 0, 0⟩, TxInfoData.GasCostSummary 0⟩ :
        NodeStreamPayload TxInfoData TxInfoMetadata) :=
⟨payload_codec_roundtrip.2.2.2 ⟨⟨0, 0, 0, 0⟩, TxInfoData.GasCostSummary 0⟩
  [0, 0, 0, 0, 7] [0]
  (by simp [encodePayload, encodeMetadata, encodeData, ulebEncode])
  (by decide) ⟨⟨0, 0, 0, 0⟩, TxInfoData.GasCostSummary 0⟩,
 payload_codec_roundtrip.2.1 [0, 0, 0, 0, 7, 0]
  ⟨⟨0, 0, 0, 0⟩, TxInfoData.GasCostSummary 0⟩ (by decide)⟩

/-- C5: whenever a created or mutated object's resolution returns a package
object, the output contains that object's `ObjectChangeLight` and
`ObjectChangeRaw` events and a `PackagePublish` event carrying the resolved
object, and the total number of `PackagePublish` events is exactly one per
reference-bearing light change whose resolution is a package. -/
theorem package_publish_extra (cert : VerifiedExecutableTransaction)
    (effects : TransactionEffects) (locs : List (ObjectID × SequenceNumber))
    (store : ObjectStore) (r : ObjectRef) (ow : Owner)
    (st : ObjectChangeStatus) (o : Object)
    (hstore : ∀ c ∈ lightChanges effects locs, storeOkAt store c = true)
    (hmem : ((r, ow) ∈ effects.created ∧ st = ObjectChangeStatus.Created r ow) ∨
            ((r, ow) ∈ effects.mutated ∧ st = ObjectChangeStatus.Mutated r ow))
    (hres : resolveChange store st = some o)
    (hpkg : o.is_package = true) :
    ∃ l, TxInfoData.from_post_exec cert effects locs store = .ok l ∧
      TxInfoData.ObjectChangeLight st ∈ l ∧
      TxInfoData.ObjectChangeRaw st (some o) ∈ l ∧
      TxInfoData.PackagePublish o ∈ l ∧
      l.countP TxInfoData.isPP =
        (lightChanges effects locs).countP (isPackageResolution store) := by
have hstmem : st ∈ lightChanges effects locs := by
  rcases hmem with ⟨hm, rfl⟩ | ⟨hm, rfl⟩
  · exact mem_lightChanges_created effects locs r ow hm
  · exact mem_lightChanges_mutated effects locs r ow hm
have hhr : st.hasRef = true := by
  rcases hmem with ⟨-, rfl⟩ | ⟨-, rfl⟩ <;> rfl
refine ⟨specOutput cert effects locs store,
  from_post_exec_ok cert effects locs store hstore,
  mem_specOutput_light cert effects locs store st hstmem, ?_,
  mem_specOutput_package cert effects locs store st o hstmem hhr hres hpkg,
  countP_isPP_specOutput cert effects locs store⟩
rw [← hres]
exact mem_specOutput_raw cert effects locs store st hstmem

theorem package_publish_extra_witness :
    ∃ l, TxInfoData.from_post_exec ⟨⟨[]⟩⟩
      ⟨[((1, 1, 0), Owner.Immutable)], [], [], [], [], [], 0⟩ []
      ⟨fun i _ => if i = 1 then .ok (some ⟨1, 1, [], true⟩) else .ok none⟩ =
      .ok l ∧
    TxInfoData.ObjectChangeLight (.Created (1, 1, 0) Owner.Immutable) ∈ l ∧
    TxInfoData.ObjectChangeRaw (.Created (1, 1, 0) Owner.Immutable)
      (some ⟨1, 1, [], true⟩) ∈ l ∧
    TxInfoData.PackagePublish ⟨1, 1, [], true⟩ ∈ l ∧
    l.countP TxInfoData.isPP =
      (lightChanges ⟨[((1, 1, 0), Owner.Immutable)], [], [], [], [], [], 0⟩
        []).countP (isPackageResolution
          ⟨fun i _ => if i = 1 then .ok (some ⟨1, 1, [], true⟩) else .ok none⟩) :=
package_publish_extra ⟨⟨[]⟩⟩
  ⟨[((1, 1, 0), Owner.Immutable)], [], [], [], [], [], 0⟩ []
  ⟨fun i _ => if i = 1 then .ok (some ⟨1, 1, [], true⟩) else .ok none⟩
  (1, 1, 0) Owner.Immutable (.Created (1, 1, 0) Owner.Immutable)
  ⟨1, 1, [], true⟩ (by decide) (Or.inl ⟨by decide, rfl⟩) (by decide) rfl

/-- C6: each `ObjectChangeRaw` carries exactly the resolver's answer for its
change's (id, version): a deleted object the store answers `None` for yields
a raw event carrying `none`, and a mutated object the store answers
`Some o` for yields a raw event carrying exactly `some o`. -/
theorem raw_carries_resolution (cert : VerifiedExecutableTransaction)
    (effects : TransactionEffects) (locs : List (ObjectID × SequenceNumber))
    (store : ObjectStore)
    (hstore : ∀ c ∈ lightChanges effects locs, storeOkAt store c = true) :
    (∀ r ∈ effects.deleted, store.get_object_by_key r.1 r.2.1 = .ok none →
      ∃ l, TxInfoData.from_post_exec cert effects locs store = .ok l ∧
        TxInfoData.ObjectChangeRaw (.Deleted r) none ∈ l) ∧
    (∀ (r : ObjectRef) (ow : Owner) (o : Object), (r, ow) ∈ effects.mutated →
      store.get_object_by_key r.1 r.2.1 = .ok (some o) →
      ∃ l, TxInfoData.from_post_exec cert effects locs store = .ok l ∧
        TxInfoData.ObjectChangeRaw (.Mutated r ow) (some o) ∈ l) := by
constructor
· intro r hm hres
  refine ⟨specOutput cert effects locs store,
    from_post_exec_ok cert effects locs store hstore, ?_⟩
  have hrc : resolveChange store (ObjectChangeStatus.Deleted r) = none := by
    simp [resolveChange, storeGetOk, ObjectChangeStatus.refKey, hres]
  rw [← hrc]
  exact mem_specOutput_raw cert effects locs store _
    (mem_lightChanges_deleted effects locs r hm)
· intro r ow o hm hres
  refine ⟨specOutput cert effects locs store,
    from_post_exec_ok cert effects locs store hstore, ?_⟩
  have hrc : resolveChange store (ObjectChangeStatus.Mutated r ow) = some o := by
    simp [resolveChange, storeGetOk, ObjectChangeStatus.refKey, hres]
  rw [← hrc]
  exact mem_specOutput_raw cert effects locs store _
    (mem_lightChanges_mutated effects locs r ow hm)

theorem raw_carries_resolution_witness :
    ∃ l, TxInfoData.from_post_exec ⟨⟨[]⟩⟩
      ⟨[], [((2, 2, 0), Owner.Immutable)], [(3, 3, 0)], [], [], [], 0⟩ []
      ⟨fun i _ => if i = 2 then .ok (some ⟨2, 2, [5], false⟩) else .ok none⟩ =
      .ok l ∧
    TxInfoData.ObjectChangeRaw (.Deleted (3, 3, 0)) none ∈ l :=
(raw_carries_resolution ⟨⟨[]⟩⟩
  ⟨[], [((2, 2, 0), Owner.Immutable)], [(3, 3, 0)], [], [], [], 0⟩ []
  ⟨fun i _ => if i = 2 then .ok (some ⟨2, 2, [5], false⟩) else .ok none⟩
  (by decide)).1 (3, 3, 0) (by decide) (by decide)

/-- C7: `topic_for_epoch` returns exactly the decimal epoch, a dash, and the
kind's formatted name; it is injective in the epoch for every fixed kind,
and distinct (kind, epoch) pairs always yield distinct topic strings. -/
theorem topic_for_epoch_spec :
    (∀ (k : TxInfoNodeStreamTopic) (e : Nat),
      topic_for_epoch k e = natRepr e ++ "-" ++ k.toString) ∧
    (∀ (k : TxInfoNodeStreamTopic) (e1 e2 : Nat), e1 ≠ e2 →
      topic_for_epoch k e1 ≠ topic_for_epoch k e2) ∧
    (∀ (k1 k2 : TxInfoNodeStreamTopic) (e1 e2 : Nat),
      topic_for_epoch k1 e1 = topic_for_epoch k2 e2 → k1 = k2 ∧ e1 = e2) :=
⟨fun _ _ => rfl,
 fun k e1 e2 hne hcontra => hne (topic_for_epoch_inj k k e1 e2 hcontra).2,
 topic_for_epoch_inj⟩

theorem topic_for_epoch_spec_witness :
    topic_for_epoch .Transaction 1 ≠ topic_for_epoch .Transaction 2 :=
topic_for_epoch_spec.2.1 .Transaction 1 2 (by decide)

/-- C8: a loaded-child entry is resolved through the store — its
`ObjectChangeRaw` carries the store's answer — but never yields a
`PackagePublish` event, even when the resolved object is a package: when no
reference-bearing change resolves to a package, the output contains no
`PackagePublish` at all. -/
theorem loaded_child_no_package_event (cert : VerifiedExecutableTransaction)
    (effects : TransactionEffects) (locs : List (ObjectID × SequenceNumber))
    (store : ObjectStore) (id : ObjectID) (seq : SequenceNumber) (o : Object)
    (hstore : ∀ c ∈ lightChanges effects locs, storeOkAt store c = true)
    (hmem : (id, seq) ∈ locs)
    (hres : store.get_object_by_key id seq = .ok (some o))
    (hpkg : o.is_package = true)
    (hnoref : ∀ c ∈ lightChanges effects locs, c.hasRef = true →
      isPackageResolution store c = false) :
    ∃ l, TxInfoData.from_post_exec cert effects locs store = .ok l ∧
      TxInfoData.ObjectChangeRaw (.LoadedChildObject id seq) (some o) ∈ l ∧
      l.countP TxInfoData.isPP = 0 := by
refine ⟨specOutput cert effects locs store,
  from_post_exec_ok cert effects locs store hstore, ?_, ?_⟩
· have hrc : resolveChange store (ObjectChangeStatus.LoadedChildObject id seq) =
      some o := by
    simp [resolveChange, storeGetOk, ObjectChangeStatus.refKey, hres]
  rw [← hrc]
  exact mem_specOutput_raw cert effects locs store _
    (mem_lightChanges_loaded effects locs id seq hmem)
· rw [countP_isPP_specOutput]
  apply List.countP_eq_zero.mpr
  intro c hc
  by_cases hre : c.hasRef = true
  · simp [hnoref c hc hre]
  · have hfalse : c.hasRef = false := by
      revert hre
      cases c.hasRef <;> simp
    simp [isPackageResolution, hfalse]

theorem loaded_child_no_package_event_witness :
    ∃ l, TxInfoData.from_post_exec ⟨⟨[]⟩⟩ ⟨[], [], [], [], [], [], 0⟩ [(4, 1)]
      ⟨fun _ _ => .ok (some ⟨4, 1, [], true⟩)⟩ = .ok l ∧
    TxInfoData.ObjectChangeRaw (.LoadedChildObject 4 1)
      (some ⟨4, 1, [], true⟩) ∈ l ∧
    l.countP TxInfoData.isPP = 0 :=
loaded_child_no_package_event ⟨⟨[]⟩⟩ ⟨[], [], [], [], [], [], 0⟩ [(4, 1)]
  ⟨fun _ _ => .ok (some ⟨4, 1, [], true⟩)⟩ 4 1 ⟨4, 1, [], true⟩
  (by decide) (by decide) (by decide) rfl (by decide)

/-- C9: every envelope returned by one call to the top-level extraction
carries identical metadata, equal to the caller-supplied processing
timestamp, checkpoint id, sender and transaction digest. -/
theorem envelope_metadata_identical (ts cp : Nat) (sender : SuiAddress)
    (dg : TransactionDigest) (cert : VerifiedExecutableTransaction)
    (effects : TransactionEffects) (locs : List (ObjectID × SequenceNumber))
    (store : ObjectStore)
    (l : List (NodeStreamPayload TxInfoData TxInfoMetadata × TxInfoNodeStreamTopic))
    (h : from_post_exec ts cp sender dg cert effects locs store = .ok l) :
    ∀ p ∈ l, p.1.metdata = ⟨ts, cp, sender, dg⟩ := by
unfold from_post_exec at h
split at h
next e h1 => simp at h
next ds h1 =>
  cases h
  intro p hp
  obtain ⟨d, hd, rfl⟩ := List.mem_map.mp hp
  rfl

theorem envelope_metadata_identical_witness :
    ((⟨⟨1, 2, 3, 4⟩, TxInfoData.GasCostSummary 42⟩ :
        NodeStreamPayload TxInfoData TxInfoMetadata),
      TxInfoNodeStreamTopic.GasCostSummary).1.metdata =
      (⟨1, 2, 3, 4⟩ : TxInfoMetadata) :=
envelope_metadata_identical 1 2 3 4 ⟨⟨[]⟩⟩ ⟨[], [], [], [], [], [], 42⟩ []
  ⟨fun _ _ => .ok none⟩
  [(⟨⟨1, 2, 3, 4⟩, TxInfoData.GasCostSummary 42⟩,
    TxInfoNodeStreamTopic.GasCostSummary),
   (⟨⟨1, 2, 3, 4⟩, TxInfoData.Effects ⟨[], [], [], [], [], [], 42⟩⟩,
    TxInfoNodeStreamTopic.Effects),
   (⟨⟨1, 2, 3, 4⟩, TxInfoData.Transaction ⟨[]⟩⟩,
    TxInfoNodeStreamTopic.Transaction)]
  (by decide)
  (⟨⟨1, 2, 3, 4⟩, TxInfoData.GasCostSummary 42⟩,
    TxInfoNodeStreamTopic.GasCostSummary) (by decide)

/-- C10: every (payload, topic) pair the top-level extraction returns
satisfies `topic = to_topic (payload body)`, and no returned payload ever
has the `String` body variant. -/
theorem topics_match_no_string_body (ts cp : Nat) (sender : SuiAddress)
    (dg : TransactionDigest) (cert : VerifiedExecutableTransaction)
    (effects : TransactionEffects) (locs : List (ObjectID × SequenceNumber))
    (store : ObjectStore)
    (l : List (NodeStreamPayload TxInfoData TxInfoMetadata × TxInfoNodeStreamTopic))
    (h : from_post_exec ts cp sender dg cert effects locs store = .ok l) :
    ∀ pt ∈ l, pt.2 = pt.1.data.to_topic ∧
      ∀ s, pt.1.data ≠ TxInfoData.String s := by
unfold from_post_exec at h
split at h
next e h1 => simp at h
next ds h1 =>
  cases h
  intro pt hpt
  obtain ⟨d, hd, rfl⟩ := List.mem_map.mp hpt
  exact ⟨rfl, from_post_exec_no_string cert effects locs store ds h1 d hd⟩

theorem topics_match_no_string_body_witness :
    (((⟨⟨1, 2, 3, 4⟩, TxInfoData.GasCostSummary 42⟩ :
        NodeStreamPayload TxInfoData TxInfoMetadata),
      TxInfoNodeStreamTopic.GasCostSummary).2 =
      (⟨⟨1, 2, 3, 4⟩, TxInfoData.GasCostSummary 42⟩ :
        NodeStreamPayload TxInfoData TxInfoMetadata).data.to_topic) ∧
    (⟨⟨1, 2, 3, 4⟩, TxInfoData.GasCostSummary 42⟩ :
      NodeStreamPayload TxInfoData TxInfoMetadata).data ≠
      TxInfoData.String [] :=
⟨(topics_match_no_string_body 1 2 3 4 ⟨⟨[]⟩⟩ ⟨[], [], [], [], [], [], 42⟩ []
    ⟨fun _ _ => .ok none⟩
    [(⟨⟨1, 2, 3, 4⟩, TxInfoData.GasCostSummary 42⟩,
      TxInfoNodeStreamTopic.GasCostSummary),
     (⟨⟨1, 2, 3, 4⟩, TxInfoData.Effects ⟨[], [], [], [], [], [], 42⟩⟩,
      TxInfoNodeStreamTopic.Effects),
     (⟨⟨1, 2, 3, 4⟩, TxInfoData.Transaction ⟨[]⟩⟩,
      TxInfoNodeStreamTopic.Transaction)]
    (by decide)
    (⟨⟨1, 2, 3, 4⟩, TxInfoData.GasCostSummary 42⟩,
      TxInfoNodeStreamTopic.GasCostSummary) (by decide)).1,
 (topics_match_no_string_body 1 2 3 4 ⟨⟨[]⟩⟩ ⟨[], [], [], [], [], [], 42⟩ []
    ⟨fun _ _ => .ok none⟩
    [(⟨⟨1, 2, 3, 4⟩, TxInfoData.GasCostSummary 42⟩,
      TxInfoNodeStreamTopic.GasCostSummary),
     (⟨⟨1, 2, 3, 4⟩, TxInfoData.Effects ⟨[], [], [], [], [], [], 42⟩⟩,
      TxInfoNodeStreamTopic.Effects),
     (⟨⟨1, 2, 3, 4⟩, TxInfoData.Transaction ⟨[]⟩⟩,
      TxInfoNodeStreamTopic.Transaction)]
    (by decide)
    (⟨⟨1, 2, 3, 4⟩, TxInfoData.GasCostSummary 42⟩,
      TxInfoNodeStreamTopic.GasCostSummary) (by decide)).2 []⟩

end NodeStream
